import Mathlib

/-!
Verification of the `DaneJoe::MTQueue<T>` blocking FIFO queue
(src/include/mt_queue/mt_queue.hpp) against its specification.

The queue's shared state consists of the member fields `m_queue`
(a `std::queue<T>`, here a `List T` with the head of the list being the
front of the queue) and `m_is_running` (a `bool`, default-initialized to
`true`).  Every public operation takes the lock, so in the sequential
embedding each operation is a pure function from queue state to queue
state plus a result.

Blocking: `pop` and `front` wait on the condition variable with the
predicate `!m_queue.empty() || !m_is_running`.  In a sequential setting
(no other thread to change the state), a wait whose predicate is false at
entry never returns, so these operations are embedded as returning
`Option (result × state)`, where `none` means "blocks forever".
`pop_until`/`pop_for` always return (the wait is bounded by a deadline),
so they are total.
-/

/-- State of a `DaneJoe::MTQueue<T>` object: the buffered items
(`m_queue`, front of the C++ queue = head of the list) and the running
flag (`m_is_running`). -/
structure MTQueue (T : Type) where
  m_queue : List T
  m_is_running : Bool
deriving DecidableEq

/-- Default construction `MTQueue()`: the buffer member is an empty
`std::queue` and `m_is_running` has default member initializer `true`. -/
def MTQueue.new (T : Type) : MTQueue T := ⟨[], true⟩

/-- The condition-variable wait predicate used by `pop`, `pop_until`,
`pop_for` and `front`: `!m_queue.empty() || !m_is_running`. -/
def MTQueue.wait_pred {T : Type} (q : MTQueue T) : Bool :=
  !q.m_queue.isEmpty || !q.m_is_running

/-- The code run by `pop`, `try_pop`, `pop_until` and `pop_for` once they
hold the lock (after any wait): if the buffer is empty return `nullopt`,
otherwise move out `m_queue.front()`, `m_queue.pop()` and return the
item.  Each of the four methods contains this exact block. -/
def MTQueue.pop_body {T : Type} (q : MTQueue T) : Option T × MTQueue T :=
  match q.m_queue with
  | [] => (none, q)
  | x :: xs => (some x, { q with m_queue := xs })

/-- `MTQueue::pop`: waits until `wait_pred` holds, then runs `pop_body`.
`none` models the call never returning (blocked forever, sequentially). -/
def MTQueue.pop {T : Type} (q : MTQueue T) : Option (Option T × MTQueue T) :=
  if q.wait_pred then some q.pop_body else none

/-- `MTQueue::try_pop`: no wait, directly runs the shared empty-check /
dequeue block. -/
def MTQueue.try_pop {T : Type} (q : MTQueue T) : Option T × MTQueue T :=
  q.pop_body

/-- `MTQueue::pop_until`: `wait_until` returns either because the
predicate held or because the deadline passed (its `bool` result is
ignored by the code); in both cases the sequential state is unchanged by
the wait and the method then runs the shared empty-check / dequeue
block. -/
def MTQueue.pop_until {T : Type} (q : MTQueue T) : Option T × MTQueue T :=
  q.pop_body

/-- `MTQueue::pop_for`: identical structure to `pop_until` with a
relative timeout; the wait's `bool` result is likewise ignored. -/
def MTQueue.pop_for {T : Type} (q : MTQueue T) : Option T × MTQueue T :=
  q.pop_body

/-- `MTQueue::front` (const): waits on the same predicate as `pop`; if
the buffer is non-empty returns a copy of `m_queue.front()`, otherwise
returns `nullopt`; the state is never modified (`List.head?` is exactly
this case split). `none` models the call blocking forever. -/
def MTQueue.front {T : Type} (q : MTQueue T) : Option (Option T × MTQueue T) :=
  if q.wait_pred then some (q.m_queue.head?, q) else none

/-- `MTQueue::push`: under the lock, if `m_is_running` the item is
appended to the tail and `is_pushed` is `true`; otherwise the item is
discarded.  Returns `is_pushed` (the `notify_one` has no sequential
effect). -/
def MTQueue.push {T : Type} (q : MTQueue T) (item : T) : Bool × MTQueue T :=
  if q.m_is_running then (true, { q with m_queue := q.m_queue ++ [item] })
  else (false, q)

/-- `MTQueue::empty`: snapshot of `m_queue.empty()`. -/
def MTQueue.empty {T : Type} (q : MTQueue T) : Bool :=
  q.m_queue.isEmpty

/-- `MTQueue::size`: snapshot of `m_queue.size()`. -/
def MTQueue.size {T : Type} (q : MTQueue T) : Nat :=
  q.m_queue.length

/-- `MTQueue::is_running`: snapshot of `m_is_running`. -/
def MTQueue.is_running {T : Type} (q : MTQueue T) : Bool :=
  q.m_is_running

/-- `MTQueue::close`: sets `m_is_running = false` under the lock, then
`notify_all` (no sequential effect). -/
def MTQueue.close {T : Type} (q : MTQueue T) : MTQueue T :=
  { q with m_is_running := false }

/-- `MTQueue::~MTQueue`: calls `close()`. -/
def MTQueue.destruct {T : Type} (q : MTQueue T) : MTQueue T :=
  q.close

/-- `MTQueue::MTQueue(MTQueue&&)`: under both locks, `m_queue` is
move-assigned from `other.m_queue` (the moved-from `std::queue` is left
empty, as all standard-library implementations leave it), `m_is_running`
copies `other.m_is_running`, and `other.m_is_running` is set to `false`.
Returns (the new object, the moved-from source). -/
def MTQueue.move_construct {T : Type} (other : MTQueue T) : MTQueue T × MTQueue T :=
  (⟨other.m_queue, other.m_is_running⟩, ⟨[], false⟩)

/-- `MTQueue::operator=(MTQueue&&)`: if `this == &other` (flag
`is_same_object`) returns `*this` immediately with no mutation;
otherwise performs the same transfer as the move constructor.  Returns
(the assigned-to object, the source object). -/
def MTQueue.move_assign {T : Type} (self other : MTQueue T)
    (is_same_object : Bool) : MTQueue T × MTQueue T :=
  if is_same_object then (self, other)
  else (⟨other.m_queue, other.m_is_running⟩, ⟨[], false⟩)

/-- One invocation of a public operation on a queue object, as it
affects that object's own state.  `move_from` is being used as the
source of a move construction or (distinct) move assignment;
`move_assign_from other` is being the target of a move assignment from a
distinct object in state `other`; `self_move_assign` is `q =
std::move(q)`. -/
inductive Op (T : Type) where
  | pop
  | try_pop
  | pop_until
  | pop_for
  | front
  | push (item : T)
  | emptyq
  | sizeq
  | is_runningq
  | close
  | destruct
  | move_from
  | move_assign_from (other : MTQueue T)
  | self_move_assign
deriving DecidableEq

/-- The state of the object after the operation returns (for `pop` and
`front`, after it returns or while it stays blocked — in both cases the
object's state). -/
def applyOp {T : Type} (q : MTQueue T) : Op T → MTQueue T
  | .pop => if q.wait_pred then q.pop_body.2 else q
  | .try_pop => q.try_pop.2
  | .pop_until => q.pop_until.2
  | .pop_for => q.pop_for.2
  | .front => q
  | .push item => (q.push item).2
  | .emptyq => q
  | .sizeq => q
  | .is_runningq => q
  | .close => q.close
  | .destruct => q.destruct
  | .move_from => (MTQueue.move_construct q).2
  | .move_assign_from other => (MTQueue.move_assign q other false).1
  | .self_move_assign => (MTQueue.move_assign q q true).1

/-- Operations that shut the queue down: `close`, the destructor, and
being invalidated as a move source. -/
def Op.isClosing {T : Type} : Op T → Bool
  | .close => true
  | .destruct => true
  | .move_from => true
  | _ => false

/-- Whether the operation is a move assignment into this object from a
distinct object. -/
def Op.isMoveAssignTarget {T : Type} : Op T → Bool
  | .move_assign_from _ => true
  | _ => false

/-- A call from the pop/peek family, for reasoning about sequences of
subsequent consumer calls. -/
inductive PopOp where
  | pop
  | try_pop
  | pop_until
  | pop_for
  | front
deriving DecidableEq

/-- Result observed by one pop-family call and the state it leaves
behind.  A `pop`/`front` whose wait predicate is false blocks forever:
it observes nothing and leaves the state unchanged. -/
def runPop {T : Type} (q : MTQueue T) : PopOp → Option T × MTQueue T
  | .pop =>
    match q.pop with
    | some r => r
    | none => (none, q)
  | .try_pop => q.try_pop
  | .pop_until => q.pop_until
  | .pop_for => q.pop_for
  | .front =>
    match q.front with
    | some r => r
    | none => (none, q)

/-- Run a sequence of pop-family calls; returns the final state and the
list of observed results. -/
def runPops {T : Type} (q : MTQueue T) : List PopOp → MTQueue T × List (Option T)
  | [] => (q, [])
  | op :: ops =>
    let r := runPop q op
    let rest := runPops r.2 ops
    (rest.1, r.1 :: rest.2)

/-- Push each item of the list in order; returns the final state and the
list of `push` return values. -/
def pushAll {T : Type} (q : MTQueue T) : List T → MTQueue T × List Bool
  | [] => (q, [])
  | x :: xs =>
    let r := q.push x
    let rest := pushAll r.2 xs
    (rest.1, r.1 :: rest.2)

/-- Call `pop` `n` times in sequence; returns the observed results and
the final state (a blocked `pop` observes nothing and stops the run). -/
def popN {T : Type} (q : MTQueue T) : Nat → List (Option T) × MTQueue T
  | 0 => ([], q)
  | n + 1 =>
    match q.pop with
    | some r =>
      let rest := popN r.2 n
      (r.1 :: rest.1, rest.2)
    | none => ([], q)

lemma pop_body_fst_mem {T : Type} (q : MTQueue T) (x : T)
    (h : q.pop_body.1 = some x) : x ∈ q.m_queue := by
  cases hq : q.m_queue with
  | nil => simp [MTQueue.pop_body, hq] at h
  | cons a as =>
    simp [MTQueue.pop_body, hq] at h
    simp [hq, h]

lemma pop_body_snd_subset {T : Type} (q : MTQueue T) :
    q.pop_body.2.m_queue ⊆ q.m_queue := by
  cases hq : q.m_queue with
  | nil => simp [MTQueue.pop_body, hq]
  | cons a as =>
    simp [MTQueue.pop_body, hq]

lemma runPop_fst_mem {T : Type} (q : MTQueue T) (op : PopOp) (x : T)
    (h : (runPop q op).1 = some x) : x ∈ q.m_queue := by
  cases op with
  | pop =>
    by_cases hw : q.wait_pred
    · simp [runPop, MTQueue.pop, hw] at h
      exact pop_body_fst_mem q x h
    · simp [runPop, MTQueue.pop, hw] at h
  | try_pop => exact pop_body_fst_mem q x h
  | pop_until => exact pop_body_fst_mem q x h
  | pop_for => exact pop_body_fst_mem q x h
  | front =>
    by_cases hw : q.wait_pred
    · simp [runPop, MTQueue.front, hw] at h
      exact List.mem_of_mem_head? (Option.mem_def.mpr h)
    · simp [runPop, MTQueue.front, hw] at h

lemma runPop_snd_subset {T : Type} (q : MTQueue T) (op : PopOp) :
    (runPop q op).2.m_queue ⊆ q.m_queue := by
  cases op with
  | pop =>
    by_cases hw : q.wait_pred
    · simp [runPop, MTQueue.pop, hw]
      exact pop_body_snd_subset q
    · simp [runPop, MTQueue.pop, hw]
  | try_pop => exact pop_body_snd_subset q
  | pop_until => exact pop_body_snd_subset q
  | pop_for => exact pop_body_snd_subset q
  | front =>
    by_cases hw : q.wait_pred
    · simp [runPop, MTQueue.front, hw]
    · simp [runPop, MTQueue.front, hw]

lemma runPops_obs_mem {T : Type} (ops : List PopOp) (q : MTQueue T) (x : T)
    (h : some x ∈ (runPops q ops).2) : x ∈ q.m_queue := by
  induction ops generalizing q with
  | nil => simp [runPops] at h
  | cons op ops ih =>
    simp only [runPops, List.mem_cons] at h
    cases h with
    | inl h => exact runPop_fst_mem q op x h.symm
    | inr h => exact runPop_snd_subset q op (ih _ h)

lemma pop_body_snd_running {T : Type} (q : MTQueue T) :
    q.pop_body.2.m_is_running = q.m_is_running := by
  cases hq : q.m_queue <;> simp [MTQueue.pop_body, hq]

lemma pushAll_running {T : Type} (xs : List T) (q : MTQueue T)
    (h : q.m_is_running = true) :
    pushAll q xs = (⟨q.m_queue ++ xs, true⟩, List.replicate xs.length true) := by
  induction xs generalizing q with
  | nil =>
    obtain ⟨l, r⟩ := q
    simp only [MTQueue.m_is_running] at h
    simp [pushAll, h]
  | cons x xs ih =>
    have hp : q.push x = (true, ⟨q.m_queue ++ [x], true⟩) := by
      obtain ⟨l, r⟩ := q
      simp only [MTQueue.m_is_running] at h
      simp [MTQueue.push, h]
    simp only [pushAll, hp, ih ⟨q.m_queue ++ [x], true⟩ rfl]
    simp [List.replicate_succ]

lemma popN_drain {T : Type} (xs : List T) (r : Bool) :
    popN (⟨xs, r⟩ : MTQueue T) xs.length = (xs.map some, ⟨[], r⟩) := by
  induction xs with
  | nil => simp [popN]
  | cons x xs ih =>
    have hp : (⟨x :: xs, r⟩ : MTQueue T).pop = some (some x, ⟨xs, r⟩) := by
      simp [MTQueue.pop, MTQueue.wait_pred, MTQueue.pop_body]
    simp [popN, hp, ih]

/-- C1 (counterexample): the claim "no operation of the public interface
ever changes running from false back to true" is false on the code: a
closed queue that is made the target of a move assignment from a running
queue (`operator=(MTQueue&&)` with a distinct `other`) copies
`other.m_is_running`, i.e. its running flag goes from `false` to
`true`. -/
theorem mtqueue_running_reverts_cex :
    (⟨[], false⟩ : MTQueue Nat).m_is_running = false ∧
    (applyOp (⟨[], false⟩ : MTQueue Nat)
      (Op.move_assign_from ⟨[], true⟩)).m_is_running = true :=
  ⟨rfl, rfl⟩

/-- C1 (amended): the running flag is true at creation; for every public
operation other than being the target of a move assignment (which
overwrites the flag wholesale with the source's flag), running never
changes from false back to true, and a true-to-false transition happens
only through a closing operation (`close`, destruction, or invalidation
as a move source). -/
theorem mtqueue_running_transitions {T : Type} :
    ((MTQueue.new T).m_is_running = true) ∧
    (∀ (q : MTQueue T) (op : Op T), op.isMoveAssignTarget = false →
      q.m_is_running = false → (applyOp q op).m_is_running = false) ∧
    (∀ (q : MTQueue T) (op : Op T), op.isMoveAssignTarget = false →
      q.m_is_running = true → (applyOp q op).m_is_running = false →
      op.isClosing = true) := by
  refine ⟨rfl, ?_, ?_⟩
  · intro q op hop h
    cases op with
    | pop =>
      by_cases hw : q.wait_pred <;>
        simp [applyOp, hw, pop_body_snd_running, h]
    | try_pop => simp [applyOp, MTQueue.try_pop, pop_body_snd_running, h]
    | pop_until => simp [applyOp, MTQueue.pop_until, pop_body_snd_running, h]
    | pop_for => simp [applyOp, MTQueue.pop_for, pop_body_snd_running, h]
    | front => simpa [applyOp] using h
    | push item => simp [applyOp, MTQueue.push, h]
    | emptyq => simpa [applyOp] using h
    | sizeq => simpa [applyOp] using h
    | is_runningq => simpa [applyOp] using h
    | close => simp [applyOp, MTQueue.close]
    | destruct => simp [applyOp, MTQueue.destruct, MTQueue.close]
    | move_from => simp [applyOp, MTQueue.move_construct]
    | move_assign_from other => simp [Op.isMoveAssignTarget] at hop
    | self_move_assign => simpa [applyOp, MTQueue.move_assign] using h
  · intro q op hop h hres
    cases op with
    | pop =>
      by_cases hw : q.wait_pred <;>
        simp [applyOp, hw, pop_body_snd_running, h] at hres
    | try_pop => simp [applyOp, MTQueue.try_pop, pop_body_snd_running, h] at hres
    | pop_until => simp [applyOp, MTQueue.pop_until, pop_body_snd_running, h] at hres
    | pop_for => simp [applyOp, MTQueue.pop_for, pop_body_snd_running, h] at hres
    | front => simp [applyOp, h] at hres
    | push item => simp [applyOp, MTQueue.push, h] at hres
    | emptyq => simp [applyOp, h] at hres
    | sizeq => simp [applyOp, h] at hres
    | is_runningq => simp [applyOp, h] at hres
    | close => rfl
    | destruct => rfl
    | move_from => rfl
    | move_assign_from other => simp [Op.isMoveAssignTarget] at hop
    | self_move_assign => simp [applyOp, MTQueue.move_assign, h] at hres

/-- Witness for the amended C1 at concrete inputs: `try_pop` on a closed
queue leaves it closed, and the true-to-false transition caused by
`close` on a fresh queue is indeed a closing operation. -/
theorem mtqueue_running_transitions_witness :
    (applyOp (⟨[5], false⟩ : MTQueue Nat) Op.try_pop).m_is_running = false ∧
    Op.isClosing (Op.close : Op Nat) = true :=
  ⟨(mtqueue_running_transitions (T := Nat)).2.1 ⟨[5], false⟩ Op.try_pop rfl rfl,
   (mtqueue_running_transitions (T := Nat)).2.2 ⟨[], true⟩ Op.close rfl rfl rfl⟩

/-- C2: `pop` blocks (never returns) exactly when the buffer is empty and
the queue still running; if the buffer is non-empty it returns the head
and removes it; whenever it returns, the result is absent (with the
state untouched) exactly when the buffer is empty and the queue
closed. -/
theorem pop_blocking_spec {T : Type} (q : MTQueue T) :
    (q.pop = none ↔ (q.m_queue = [] ∧ q.m_is_running = true)) ∧
    (∀ x xs, q.m_queue = x :: xs →
      q.pop = some (some x, ⟨xs, q.m_is_running⟩)) ∧
    (∀ r s, q.pop = some (r, s) →
      ((r = none ∧ s = q) ↔ (q.m_queue = [] ∧ q.m_is_running = false))) := by
  obtain ⟨l, b⟩ := q
  cases l <;> cases b <;>
    simp [MTQueue.pop, MTQueue.wait_pred, MTQueue.pop_body]

/-- Witness for C2: popping `⟨[1, 2], running⟩` returns head `1` and
leaves `⟨[2], running⟩`. -/
theorem pop_blocking_spec_witness :
    (⟨[1, 2], true⟩ : MTQueue Nat).pop = some (some 1, ⟨[2], true⟩) :=
  (pop_blocking_spec ⟨[1, 2], true⟩).2.1 1 [2] rfl

/-- C3: pushing `x` after `close` returns `false` and leaves the state
exactly unchanged; consequently (for an `x` not already in the buffer,
since values stand for item identity here) no sequence of subsequent
pop-family calls ever observes `x`. -/
theorem push_after_close_spec {T : Type} (q : MTQueue T) (x : T)
    (hx : x ∉ q.m_queue) :
    q.close.push x = (false, q.close) ∧
    ∀ ops : List PopOp, some x ∉ (runPops (q.close.push x).2 ops).2 := by
  have h1 : q.close.push x = (false, q.close) := by
    simp [MTQueue.push, MTQueue.close]
  refine ⟨h1, ?_⟩
  intro ops hmem
  rw [h1] at hmem
  exact hx (runPops_obs_mem ops q.close x hmem)

/-- Witness for C3: after closing `⟨[1], true⟩`, pushing `7` fails and a
subsequent `pop` then `try_pop` never observe `7`. -/
theorem push_after_close_spec_witness :
    (⟨[1], true⟩ : MTQueue Nat).close.push 7 =
      (false, (⟨[1], true⟩ : MTQueue Nat).close) ∧
    some 7 ∉ (runPops ((⟨[1], true⟩ : MTQueue Nat).close.push 7).2
      [PopOp.pop, PopOp.try_pop]).2 := by
  have h := push_after_close_spec (⟨[1], true⟩ : MTQueue Nat) 7 (by decide)
  exact ⟨h.1, h.2 [PopOp.pop, PopOp.try_pop]⟩

/-- C4: starting from a freshly created queue, every push of `P1…Pn`
succeeds, and `n` sequential pops return exactly `P1…Pn` in order,
leaving the queue empty and still running. -/
theorem fifo_order_spec {T : Type} (xs : List T) :
    (pushAll (MTQueue.new T) xs).2 = List.replicate xs.length true ∧
    popN (pushAll (MTQueue.new T) xs).1 xs.length =
      (xs.map some, ⟨[], true⟩) := by
  have h := pushAll_running xs (MTQueue.new T) rfl
  rw [h]
  exact ⟨rfl, by simpa using popN_drain xs true⟩

/-- C5: `close` is idempotent; every item buffered at the moment of
`close` is still returned, in order, by subsequent pops until the buffer
is exhausted; and on a closed empty queue every pop-family operation
returns absent without changing the state. -/
theorem close_idempotent_drain_spec {T : Type} :
    (∀ q : MTQueue T, q.close.close = q.close) ∧
    (∀ (b : List T) (r : Bool),
      popN (MTQueue.close ⟨b, r⟩) b.length = (b.map some, ⟨[], false⟩)) ∧
    ((⟨[], false⟩ : MTQueue T).pop = some (none, ⟨[], false⟩) ∧
     (⟨[], false⟩ : MTQueue T).try_pop = (none, ⟨[], false⟩) ∧
     (⟨[], false⟩ : MTQueue T).pop_until = (none, ⟨[], false⟩) ∧
     (⟨[], false⟩ : MTQueue T).pop_for = (none, ⟨[], false⟩) ∧
     (⟨[], false⟩ : MTQueue T).front = some (none, ⟨[], false⟩)) := by
  refine ⟨fun q => rfl, fun b r => ?_, rfl, rfl, rfl, rfl, rfl⟩
  simpa [MTQueue.close] using popN_drain b false

/-- C6: moving queue `a` into `b` — by move construction or by move
assignment into a distinct object `b` — gives a destination holding
exactly `a`'s pre-move items and running flag, and leaves the source
empty and not running. -/
theorem move_semantics_spec {T : Type} (a b : MTQueue T) :
    MTQueue.move_construct a = (⟨a.m_queue, a.m_is_running⟩, ⟨[], false⟩) ∧
    MTQueue.move_assign b a false =
      (⟨a.m_queue, a.m_is_running⟩, ⟨[], false⟩) :=
  ⟨rfl, rfl⟩

/-- C7: when the bound of `pop_until`/`pop_for` elapses before the wake
condition (non-empty or closed) ever holds — i.e. the queue is empty and
running throughout the sequential wait — the call returns absent and the
state (buffer and running flag) is exactly unchanged. -/
theorem bounded_pop_timeout_spec {T : Type} (q : MTQueue T)
    (h : q.wait_pred = false) :
    q.pop_until = (none, q) ∧ q.pop_for = (none, q) := by
  obtain ⟨l, b⟩ := q
  cases l <;> cases b <;>
    simp_all [MTQueue.wait_pred, MTQueue.pop_until, MTQueue.pop_for,
      MTQueue.pop_body]

/-- Witness for C7: on an empty running queue (wake condition false) both
bounded pops return absent and change nothing. -/
theorem bounded_pop_timeout_spec_witness :
    (⟨[], true⟩ : MTQueue Nat).pop_until = (none, ⟨[], true⟩) ∧
    (⟨[], true⟩ : MTQueue Nat).pop_for = (none, ⟨[], true⟩) :=
  bounded_pop_timeout_spec ⟨[], true⟩ rfl

/-- C8: `try_pop` is a total function of the state (it never waits): on
an empty buffer it returns absent and changes nothing, on a non-empty
buffer it removes and returns the head — in both cases identically for a
running and for a closed queue. -/
theorem try_pop_nonblocking_spec {T : Type} (r : Bool) :
    (MTQueue.mk ([] : List T) r).try_pop = (none, ⟨[], r⟩) ∧
    (∀ (x : T) (xs : List T),
      (MTQueue.mk (x :: xs) r).try_pop = (some x, ⟨xs, r⟩)) :=
  ⟨rfl, fun _ _ => rfl⟩

/-- C9: `front` blocks under exactly the same condition as `pop`;
whenever it returns, its state is exactly the input state (no removal)
and the value it returns (head copy or absent) equals the value `pop`
returns from the same state. -/
theorem front_peek_spec {T : Type} (q : MTQueue T) :
    (q.front.isSome = q.pop.isSome) ∧
    (∀ v s, q.front = some (v, s) → s = q) ∧
    (∀ v s r s2, q.front = some (v, s) → q.pop = some (r, s2) → v = r) := by
  obtain ⟨l, b⟩ := q
  cases l <;> cases b <;>
    simp [MTQueue.front, MTQueue.pop, MTQueue.wait_pred, MTQueue.pop_body]
  all_goals
    intro v s r s2 hv hs hr hs2
    rw [← hv, ← hr]

/-- Witness for C9: on `⟨[3], running⟩`, `front` returns without removal
(state preserved) and its value agrees with `pop`'s. -/
theorem front_peek_spec_witness :
    (⟨[3], true⟩ : MTQueue Nat) = ⟨[3], true⟩ ∧ (some 3 : Option Nat) = some 3 :=
  ⟨(front_peek_spec (⟨[3], true⟩ : MTQueue Nat)).2.1 (some 3) ⟨[3], true⟩ rfl,
   (front_peek_spec (⟨[3], true⟩ : MTQueue Nat)).2.2 (some 3) ⟨[3], true⟩
     (some 3) ⟨[], true⟩ rfl rfl⟩

/-- C10: self move assignment (`q = std::move(q)`, i.e. `this == &other`)
takes the early-return path: the object keeps exactly its items and its
running flag — it is not emptied or closed the way a distinct move
source is. -/
theorem self_move_assign_identity {T : Type} (q : MTQueue T) :
    MTQueue.move_assign q q true = (q, q) ∧
    applyOp q Op.self_move_assign = q :=
  ⟨rfl, rfl⟩
